import Mathlib

/-!
Verification of the data pipeline of the global-data-dashboard repository:
the source adapters (World Bank, IMF, Data Commons) of src/api.py, the
unified fetch facade get_data, and the multi-indicator merger and per-year
normalizer and scorer of src/utils.py, shallowly embedded in Lean.
Machine floats of the source are modelled by rationals, pandas missing
values (None / NaN) by an explicit null value, and Python exceptions by an
explicit error monad.
-/

namespace Dashboard

/-! ## Python runtime values

Decoded JSON payloads and pandas cells are modelled by one inductive of
Python runtime values.  A pandas missing cell (None / NaN) is `PyVal.none`. -/

inductive PyVal where
  | none
  | bool (b : Bool)
  | num (q : ℚ)
  | str (s : String)
  | list (l : List PyVal)
  | dict (d : List (String × PyVal))

/-- Truthiness test of a Python value, as used by `if not data` checks. -/
def pyTruthy : PyVal → Bool
  | PyVal.none => false
  | PyVal.bool b => b
  | PyVal.num q => q != 0
  | PyVal.str s => s != ""
  | PyVal.list l => !l.isEmpty
  | PyVal.dict d => !d.isEmpty

/-- Test for the Python `None` value (also standing for a pandas NaN cell). -/
def PyVal.isNone : PyVal → Bool
  | PyVal.none => true
  | _ => false

/-- Python exceptions that the modelled code can raise. -/
inductive PyError where
  | keyError
  | typeError
  | attributeError
  | valueError

/-! ## String helpers modelling Python str methods and number parsing -/

/-- Whitespace test used by the model of `str.strip()`. -/
def isSpace (c : Char) : Bool :=
  c == ' ' || c == '\t' || c == '\n' || c == '\r'

/-- Model of Python `str.strip()`: remove leading and trailing whitespace. -/
def pyStrip (s : String) : String :=
  String.mk (((s.data.dropWhile isSpace).reverse.dropWhile isSpace).reverse)

/-- Model of `str.replace(",", "")`: remove every comma. -/
def removeCommas (s : String) : String :=
  String.mk (s.data.filter (fun c => c != ','))

/-- Numeric value of a list of decimal digit characters. -/
def digitsVal (cs : List Char) : ℕ :=
  cs.foldl (fun n c => 10 * n + (c.toNat - '0'.toNat)) 0

/-- Unsigned part of the decimal parser: digits with an optional fractional
part, at least one digit in total.  Used by the models of Python `float()`
and `pandas.to_numeric`; scientific notation, infinities and NaN literals do
not occur in the modelled inputs. -/
def parseUnsigned (cs : List Char) : Option ℚ :=
  let ip := cs.takeWhile Char.isDigit
  let rest := cs.drop ip.length
  match rest with
  | [] => if ip.isEmpty then Option.none else some (digitsVal ip)
  | '.' :: fr =>
    if fr.all Char.isDigit && !(ip.isEmpty && fr.isEmpty) then
      some ((digitsVal ip : ℚ) + (digitsVal fr : ℚ) / (10 ^ fr.length))
    else Option.none
  | _ => Option.none

/-- Model of Python `float(s)` on a plain decimal string (after stripping). -/
def pyParseFloat (s : String) : Option ℚ :=
  match (pyStrip s).data with
  | '+' :: cs => parseUnsigned cs
  | '-' :: cs => (parseUnsigned cs).map Neg.neg
  | cs => parseUnsigned cs

/-- Model of Python `int(s)`: optional sign followed by decimal digits. -/
def pyParseInt (s : String) : Option ℤ :=
  let core : List Char → Option ℤ := fun cs =>
    if !cs.isEmpty && cs.all Char.isDigit then some (digitsVal cs) else Option.none
  match (pyStrip s).data with
  | '+' :: cs => core cs
  | '-' :: cs => (core cs).map Neg.neg
  | cs => core cs

/-- Fuelled worker of the model of `str.replace`: the fuel only makes the
recursion structural and is always instantiated with the length of the
scanned list, which bounds the number of steps. -/
def replaceAllF (pat rep : List Char) : ℕ → List Char → List Char
  | _, [] => []
  | 0, l => l
  | fuel + 1, c :: rest =>
    if !pat.isEmpty && pat.isPrefixOf (c :: rest) then
      rep ++ replaceAllF pat rep fuel (rest.drop (pat.length - 1))
    else
      c :: replaceAllF pat rep fuel rest

/-- Model of Python `str.replace(pat, rep)` on character lists: replace every
non-overlapping occurrence of `pat`, scanning left to right.  The empty
pattern (which Python treats specially) does not occur in the modelled
calls and is left as the identity. -/
def replaceAll (pat rep l : List Char) : List Char :=
  replaceAllF pat rep l.length l

/-- ASCII uppercase of one character, the effect of Python `str.upper()` on
the ISO code strings of the modelled responses. -/
def upperChar (c : Char) : Char :=
  if 'a' ≤ c && c ≤ 'z' then Char.ofNat (c.toNat - 32) else c

/-- Model of Python `s.upper()` on ASCII strings. -/
def pyUpper (s : String) : String :=
  String.mk (s.data.map upperChar)

/-- Occurrence test: does `pat` occur as a contiguous sublist of the second
argument (with the convention that the empty pattern always occurs)? -/
def occursL (pat : List Char) : List Char → Bool
  | [] => pat.isEmpty
  | c :: rest => pat.isPrefixOf (c :: rest) || occursL pat rest

/-- Model of Python `s.replace(pat, rep)` on strings. -/
def pyReplace (s pat rep : String) : String :=
  String.mk (replaceAll pat.data rep.data s.data)

/-- Model of Python `s.startswith(pat)`. -/
def pyStartswith (s pat : String) : Bool :=
  pat.data.isPrefixOf s.data

/-! ## Canonical Table

The four-column normalized table every adapter returns
(`country`, `countryiso3code`, `date`, `indicator_value`).  The `date`
column always holds integers when rows exist (the World Bank adapter casts
it with `astype(int)`, the other adapters build it with `int(...)`), so it
is typed `ℤ`; the remaining cells keep their Python runtime type. -/

structure CRow where
  country : PyVal
  countryiso3code : PyVal
  date : ℤ
  indicator_value : PyVal

structure CTable where
  cols : List String
  rows : List CRow

/-- Column list of every canonical table built by the adapters. -/
def std4 : List String :=
  ["country", "countryiso3code", "date", "indicator_value"]

/-- Empty canonical table with the four standard columns, as built by
`pd.DataFrame(columns=["country", "countryiso3code", "date",
"indicator_value"])` in every adapter failure branch. -/
def emptyC : CTable := CTable.mk std4 []

/-! ## Unified fetch facade (src/api.py, get_data)

The facade inspects the indicator code, strips the recognized source code
with `str.replace`, and dispatches; an unrecognized code yields an error
message and the empty canonical table.  The result type records which
adapter is called with which forwarded arguments, or that no adapter is
called at all. -/

inductive Adapter where
  | worldBank
  | imf
  | dataCommons

inductive GetDataResult where
  | callAdapter (a : Adapter) (indicator countries date : String)
  | invalidCode (result : CTable)

/-- Model of `get_data(indicator_code, countries, date)` of src/api.py. -/
def getData (indicator_code countries date : String) : GetDataResult :=
  if pyStartswith indicator_code "WB_" then
    GetDataResult.callAdapter Adapter.worldBank
      (pyReplace indicator_code "WB_" "") countries date
  else if pyStartswith indicator_code "IMF_" then
    GetDataResult.callAdapter Adapter.imf
      (pyReplace indicator_code "IMF_" "") countries date
  else if pyStartswith indicator_code "DC_" then
    GetDataResult.callAdapter Adapter.dataCommons
      (pyReplace indicator_code "DC_" "") countries date
  else
    GetDataResult.invalidCode emptyC

/-! ## Fetch outcomes

Every adapter first performs `requests.get/post`, `raise_for_status()` and
`response.json()` inside a try block.  The outcome of that block is either a
transport failure (`requests.exceptions.RequestException`, which includes
`HTTPError` from an error status), a JSON decoding failure, or a decoded
JSON document. -/

inductive FetchOutcome where
  | requestError
  | httpError
  | jsonDecodeError
  | ok (data : PyVal)

/-- Failure outcomes of the fetch block: network failure, HTTP error status,
or JSON-decode failure. -/
def FetchOutcome.isFailure : FetchOutcome → Bool
  | FetchOutcome.requestError => true
  | FetchOutcome.httpError => true
  | FetchOutcome.jsonDecodeError => true
  | FetchOutcome.ok _ => false

/-! ## Raw pandas records (used by the World Bank adapter model)

A raw record is an association list from column name to cell value, as built
by `pd.DataFrame.from_records` on a list of JSON objects. -/

abbrev PRow := List (String × PyVal)

/-- Cell access, with a missing key giving NaN (as pandas fills absent keys
of `from_records` input with NaN). -/
def getCell (r : PRow) (c : String) : PyVal :=
  (r.lookup c).getD PyVal.none

/-- Column assignment `df[c] = v` on one row: the previous binding of the
column, if any, is replaced. -/
def setCell (r : PRow) (c : String) (v : PyVal) : PRow :=
  (r.filter (fun p => p.1 != c)) ++ [(c, v)]

/-- Columns of `pd.DataFrame.from_records(records)`: union of the record
keys in order of first appearance. -/
def colsOf (rows : List PRow) : List String :=
  rows.foldl (fun acc r => acc ++ ((r.map Prod.fst).filter (fun k => !acc.contains k))) []

/-- Model of `pd.DataFrame.from_records`: the element list must consist of
JSON objects; other shapes make pandas raise. -/
def fromRecords : PyVal → Except PyError (List PRow)
  | PyVal.list l =>
    l.foldr (fun v acc =>
      match v, acc with
      | PyVal.dict d, Except.ok rs => Except.ok (d :: rs)
      | _, Except.ok _ => Except.error PyError.typeError
      | _, Except.error e => Except.error e) (Except.ok [])
  | _ => Except.error PyError.typeError

/-- Python `len(v)`: defined for sequences and mappings, a `TypeError` for
numbers, booleans and `None`. -/
def pyLen : PyVal → Except PyError ℕ
  | PyVal.list l => Except.ok l.length
  | PyVal.str s => Except.ok s.length
  | PyVal.dict d => Except.ok d.length
  | _ => Except.error PyError.typeError

/-- Python `v[1]` as used on the World Bank response envelope, evaluated
only after `len(v) >= 2`: lists give their second element, strings their
second character, dictionaries raise `KeyError` (their keys are strings, not
integers), other values raise `TypeError`. -/
def pyItem1 : PyVal → Except PyError PyVal
  | PyVal.list l => Except.ok (l.getD 1 PyVal.none)
  | PyVal.str s => Except.ok (PyVal.str (String.mk [s.data.getD 1 ' ']))
  | PyVal.dict _ => Except.error PyError.keyError
  | _ => Except.error PyError.typeError

/-- Truncation of a rational toward zero, the behaviour of
`astype(int)` on a float column. -/
def qTrunc (q : ℚ) : ℤ :=
  Int.tdiv q.num q.den

/-! ## World Bank adapter (src/api.py, get_worldbank_data) -/

/-- Model of the lambda of line 149:
`x.get("value") if isinstance(x, dict) else x`. -/
def countryApply : PyVal → PyVal
  | PyVal.dict d => (d.lookup "value").getD PyVal.none
  | v => v

/-- Model of `pd.to_numeric(x, errors="coerce")` on one cell: numbers pass
through, numeric strings are parsed, booleans become 0 or 1, everything
else coerces to NaN. -/
def toNumCoerce : PyVal → Option ℚ
  | PyVal.num q => some q
  | PyVal.str s => pyParseFloat s
  | PyVal.bool b => some (if b then 1 else 0)
  | _ => Option.none

/-- Cleaning tail of the World Bank adapter (lines 158 to 170): select and
rename the four columns, drop rows with a null value or country, coerce the
date column to numbers, drop rows whose date did not parse, and cast the
date column to int. -/
def wbClean (rows : List PRow) : List CRow :=
  let sel := rows.map (fun r =>
    (getCell r "country", getCell r "countryiso3code", getCell r "date", getCell r "value"))
  let sel2 := sel.filter (fun t => !t.2.2.2.isNone && !t.1.isNone)
  let sel3 := sel2.filterMap (fun t =>
    (toNumCoerce t.2.2.1).map (fun q => (t.1, t.2.1, q, t.2.2.2)))
  sel3.map (fun t => CRow.mk t.1 t.2.1 (qTrunc t.2.2.1) t.2.2.2)

/-- Model of `get_worldbank_data` of src/api.py from the fetch outcome on:
transport and JSON failures, a falsy or short or null-second-element
envelope, an empty record set, and missing expected columns all yield the
empty canonical table; the surviving records are cleaned by `wbClean`.
Malformed shapes on which the Python code raises (a body with no `len`, an
envelope whose records are not a list of objects, records without a
`country` column reaching `df["country"]`) are modelled as errors. -/
def wbProcess (o : FetchOutcome) : Except PyError CTable :=
  match o with
  | FetchOutcome.requestError => Except.ok emptyC
  | FetchOutcome.httpError => Except.ok emptyC
  | FetchOutcome.jsonDecodeError => Except.ok emptyC
  | FetchOutcome.ok data =>
    if !pyTruthy data then Except.ok emptyC
    else match pyLen data with
    | Except.error e => Except.error e
    | Except.ok n =>
      if n < 2 then Except.ok emptyC
      else match pyItem1 data with
      | Except.error e => Except.error e
      | Except.ok second =>
        if second.isNone then Except.ok emptyC
        else match fromRecords second with
        | Except.error e => Except.error e
        | Except.ok rows0 =>
          if rows0.isEmpty then Except.ok emptyC
          else
            let cols := colsOf rows0
            if !cols.contains "country" then Except.error PyError.keyError
            else
              let rows1 := rows0.map (fun r =>
                setCell r "country" (countryApply (getCell r "country")))
              if !(["country", "countryiso3code", "date", "value"].all
                    (fun c => cols.contains c)) then Except.ok emptyC
              else
                Except.ok (CTable.mk std4 (wbClean rows1))

/-! ## IMF adapter (src/api.py, get_imf_data) -/

/-- Record of the IMF unpivot loop before country names are filled in. -/
structure IRec where
  iso3 : String
  date : ℤ
  value : ℚ

/-- Sentinel strings of the IMF adapter, tested after stripping and comma
removal. -/
def isSentinel (s : String) : Bool :=
  s == "--" || s == "NA" || s == "n/a" || s == ""

/-- Model of one iteration of the inner IMF loop: parse one
`(year_str, value_obj)` data point, or skip it.  `None` values, unparsable
years, sentinel or unparsable value strings, and container values (whose
`str()` never parses as a float) are all skipped. -/
def imfPoint (iso year_str : String) (value_obj : PyVal) : Option IRec :=
  match value_obj, pyParseInt year_str with
  | PyVal.none, _ => Option.none
  | _, Option.none => Option.none
  | PyVal.num q, some y => some (IRec.mk (pyUpper iso) y q)
  | PyVal.bool b, some y => some (IRec.mk (pyUpper iso) y (if b then 1 else 0))
  | PyVal.str s, some y =>
    let s1 := removeCommas (pyStrip s)
    if isSentinel s1 then Option.none
    else (pyParseFloat s1).map (fun q => IRec.mk (pyUpper iso) y q)
  | _, some _ => Option.none

/-- Model of one country entry of the IMF unpivot loop: its year map must
be a dictionary (other entries are skipped) and each of its data points is
parsed independently by `imfPoint`. -/
def imfCountry (ce : String × PyVal) : List IRec :=
  match ce.2 with
  | PyVal.dict ys => ys.flatMap (fun p => (imfPoint ce.1 p.1 p.2).toList)
  | _ => []

/-- Model of the IMF unpivot loop over the whole data blob. -/
def imfRecords (blob : List (String × PyVal)) : List IRec :=
  blob.flatMap imfCountry

/-- Skipping condition of the IMF value parser on a string value: after
stripping and comma removal it is a sentinel, or it does not parse as a
float. -/
def imfSkipStr (s : String) : Bool :=
  let s1 := removeCommas (pyStrip s)
  isSentinel s1 || (pyParseFloat s1).isNone

/-- Model of `get_imf_data` of src/api.py from the fetch outcome on.  The
country name column is filled from the ISO3 code by the external country
code resolver, passed as `resolver`.  A non-dictionary JSON body (or a
non-dictionary under `"values"`, or a truthy non-dictionary data blob)
makes the Python code raise `AttributeError` on `.get` or `.items`. -/
def imfProcess (resolver : String → String) (indicator : String)
    (o : FetchOutcome) : Except PyError CTable :=
  match o with
  | FetchOutcome.requestError => Except.ok emptyC
  | FetchOutcome.httpError => Except.ok emptyC
  | FetchOutcome.jsonDecodeError => Except.ok emptyC
  | FetchOutcome.ok data =>
    match data with
    | PyVal.dict top =>
      match (top.lookup "values").getD (PyVal.dict []) with
      | PyVal.dict inner =>
        let blob := (inner.lookup indicator).getD (PyVal.dict [])
        if !pyTruthy blob then Except.ok emptyC
        else match blob with
        | PyVal.dict entries =>
          let recs := imfRecords entries
          if recs.isEmpty then Except.ok emptyC
          else
            Except.ok (CTable.mk std4 (recs.map (fun rec =>
              CRow.mk (PyVal.str (resolver rec.iso3)) (PyVal.str rec.iso3)
                rec.date (PyVal.num rec.value))))
        | _ => Except.error PyError.attributeError
      | _ => Except.error PyError.attributeError
    | _ => Except.error PyError.attributeError

/-! ## Data Commons adapter (src/api.py, get_datacommons_data) -/

/-- Record of the Data Commons observation loop. -/
structure DRec where
  country : String
  iso3 : String
  date : ℤ
  value : ℚ

/-- Model of Python `float(value)` on an observation value that is not
`None`: numbers and booleans convert, strings parse or raise `ValueError`,
containers raise `TypeError` (both exceptions abort the entity loop). -/
def dcFloatOf : PyVal → Option ℚ
  | PyVal.num q => some q
  | PyVal.bool b => some (if b then 1 else 0)
  | PyVal.str s => pyParseFloat s
  | _ => Option.none

/-- Model of `dcid.split("/")[-1]`. -/
def lastSegment (dcid : String) : String :=
  (dcid.splitOn "/").getLastD ""

/-- Model of `date_str.split("-")[0]`. -/
def headSegment (s : String) : String :=
  (s.splitOn "-").headD ""

/-- Model of the inner observation loop of one Data Commons entity.  The
whole entity body runs inside one try block catching `ValueError`,
`TypeError` and `AttributeError`, so a bad observation aborts the remaining
observations of that entity while keeping the records appended before it. -/
def dcObsFold (name iso : String) : List PyVal → List DRec → List DRec
  | [], acc => acc
  | obs :: rest, acc =>
    match obs with
    | PyVal.dict od =>
      match (od.lookup "date").getD PyVal.none with
      | PyVal.str ds =>
        if ds != "" && !((od.lookup "value").getD PyVal.none).isNone
            && decide (4 ≤ ds.length) then
          match pyParseInt (headSegment ds),
              dcFloatOf ((od.lookup "value").getD PyVal.none) with
          | some y, some q => dcObsFold name iso rest (acc ++ [DRec.mk name iso y q])
          | _, _ => acc
        else dcObsFold name iso rest acc
      | PyVal.none => dcObsFold name iso rest acc
      | other => if pyTruthy other then acc else dcObsFold name iso rest acc
    | _ => acc

/-- Model of one entity of the Data Commons response: derive the ISO code
from the entity dcid, resolve the country name, and fold over the
observations stored under the indicator key.  A `var_data` without `.get`
or a non-iterable observation container raises inside the per-entity try
block, contributing no records. -/
def dcEntity (resolver : String → String) (indicator dcid : String)
    (var_data : PyVal) : List DRec :=
  let iso := pyUpper (lastSegment dcid)
  let name := resolver iso
  match var_data with
  | PyVal.dict d =>
    match (d.lookup indicator).getD (PyVal.list []) with
    | PyVal.list obs => dcObsFold name iso obs []
    | _ => []
  | _ => []

/-- Model of `date.split(":")` unpacked into two integers; any failure is a
`ValueError` that the code catches and answers with the empty table. -/
def parseRange (dateRange : String) : Option (ℤ × ℤ) :=
  match dateRange.splitOn ":" with
  | [a, b] =>
    match pyParseInt a, pyParseInt b with
    | some x, some y => some (x, y)
    | _, _ => Option.none
  | _ => Option.none

/-- Fuelled worker of `dropDupBy` (the fuel, always instantiated with the
list length, only makes the recursion structural). -/
def dropDupByF {α κ : Type} [DecidableEq κ] (key : α → κ) : ℕ → List α → List α
  | _, [] => []
  | 0, l => l
  | fuel + 1, r :: rs =>
    r :: dropDupByF key fuel (rs.filter (fun x => !decide (key x = key r)))

/-- First-occurrence deduplication by a key: keep the first row of every
key, in order of first appearance.  Models `drop_duplicates(subset=...)`. -/
def dropDupBy {α κ : Type} [DecidableEq κ] (key : α → κ) (l : List α) : List α :=
  dropDupByF key l.length l

/-- Model of the year-level aggregation
`df.groupby(["country", "countryiso3code", "date"])["indicator_value"].mean()`:
one row per distinct key with the arithmetic mean of its values.  Pandas
emits the groups in sorted key order; the model emits them in order of
first appearance, which no modelled claim distinguishes. -/
def groupMean (l : List DRec) : List DRec :=
  (dropDupBy (fun r => (r.country, r.iso3, r.date)) l).map (fun r =>
    let ms := l.filter (fun x =>
      decide (x.country = r.country) && decide (x.iso3 = r.iso3) && decide (x.date = r.date))
    DRec.mk r.country r.iso3 r.date (((ms.map DRec.value).foldl (· + ·) 0) / ms.length))

/-- Model of `get_datacommons_data` of src/api.py from the fetch outcome on
(the request preparation from the country selector happens before the
fetch and is not part of the response processing).  A non-dictionary JSON
body, or a truthy non-dictionary under `"data"`, raises `AttributeError`
in the Python code. -/
def dcProcess (resolver : String → String) (indicator dateRange : String)
    (o : FetchOutcome) : Except PyError CTable :=
  match o with
  | FetchOutcome.requestError => Except.ok emptyC
  | FetchOutcome.httpError => Except.ok emptyC
  | FetchOutcome.jsonDecodeError => Except.ok emptyC
  | FetchOutcome.ok data =>
    match data with
    | PyVal.dict top =>
      match (top.lookup "data").getD (PyVal.dict []) with
      | PyVal.dict entities =>
        if entities.isEmpty then Except.ok emptyC
        else
          let recs := entities.flatMap (fun e => dcEntity resolver indicator e.1 e.2)
          if recs.isEmpty then Except.ok emptyC
          else match parseRange dateRange with
          | Option.none => Except.ok emptyC
          | some se =>
            let f := recs.filter (fun r => decide (se.1 ≤ r.date) && decide (r.date ≤ se.2))
            if f.isEmpty then Except.ok emptyC
            else
              Except.ok (CTable.mk std4 ((groupMean f).map (fun rec =>
                CRow.mk (PyVal.str rec.country) (PyVal.str rec.iso3)
                  rec.date (PyVal.num rec.value))))
      | other =>
        if !pyTruthy other then Except.ok emptyC
        else Except.error PyError.attributeError
    | _ => Except.error PyError.attributeError

/-! ## Multi-indicator merger (src/utils.py, fetch_and_merge_data)

The fetched canonical tables carry numeric values by the adapter
invariants; a fetched row is modelled with its three key fields and its
numeric value.  A merged row keeps the three join keys and an association
list of named value cells (null cells appear where an outer join finds no
partner). -/

structure CanRow where
  country : String
  iso3 : String
  date : ℤ
  value : ℚ

structure MRow where
  country : String
  iso3 : String
  date : ℤ
  vals : List (String × PyVal)

structure MTab where
  valCols : List String
  rows : List MRow

/-- Join key of the merger: `(country, countryiso3code, date)`. -/
def mkey (r : MRow) : String × String × ℤ :=
  (r.country, r.iso3, r.date)

/-- Model of `pd.merge(A, B, on=["country", "countryiso3code", "date"],
how="outer")`: every left row pairs with every key-matching right row (or
survives alone with null cells for the right columns), and right rows
without a left partner are appended with null cells for the left columns. -/
def outerJoin (A B : MTab) : MTab :=
  MTab.mk (A.valCols ++ B.valCols)
    ((A.rows.flatMap (fun a =>
      let ms := B.rows.filter (fun b => decide (mkey b = mkey a))
      if ms.isEmpty then
        [MRow.mk a.country a.iso3 a.date
          (a.vals ++ B.valCols.map (fun c => (c, PyVal.none)))]
      else
        ms.map (fun b => MRow.mk a.country a.iso3 a.date (a.vals ++ b.vals))))
    ++ ((B.rows.filter (fun b => A.rows.all (fun a => !decide (mkey a = mkey b)))).map
        (fun b => MRow.mk b.country b.iso3 b.date
          (A.valCols.map (fun c => (c, PyVal.none)) ++ b.vals))))

/-- Per-table preparation of the merger loop (lines 27 to 33 of
src/utils.py): an empty fetched table is skipped entirely; a non-empty one
is deduplicated on `(countryiso3code, date)` keeping the first occurrence,
and its value column is renamed to the semantic indicator name. -/
def prepTable (name : String) (t : List CanRow) : Option MTab :=
  if t.isEmpty then Option.none
  else
    some (MTab.mk [name]
      ((dropDupBy (fun r => (r.iso3, r.date)) t).map (fun r =>
        MRow.mk r.country r.iso3 r.date [(name, PyVal.num r.value)])))

/-- Ordering of `sort_values(by=["country", "date"])`. -/
def rowLE (a b : MRow) : Bool :=
  if a.country = b.country then decide (a.date ≤ b.date)
  else decide (a.country < b.country)

/-- Ordered insertion, the step of the sorting model. -/
def insertSorted (a : MRow) : List MRow → List MRow
  | [] => [a]
  | b :: bs => if rowLE a b then a :: b :: bs else b :: insertSorted a bs

/-- Sort of `sort_values(by=["country", "date"])` by insertion (the exact
sorting algorithm of pandas is unspecified and row order is not part of any
modelled claim). -/
def sortRows (rows : List MRow) : List MRow :=
  rows.foldr insertSorted []

/-- Model of `fetch_and_merge_data` of src/utils.py from the fetched tables
on: prepare every table, skip the empty ones, progressively outer-join the
rest, and sort the result. -/
def mergePipeline (inputs : List (String × List CanRow)) : MTab :=
  let ts := inputs.filterMap (fun nt => prepTable nt.1 nt.2)
  match ts with
  | [] => MTab.mk [] []
  | t :: rest =>
    let m := rest.foldl outerJoin t
    MTab.mk m.valCols (sortRows m.rows)

/-! ## Per-year normalizer and scorer (src/utils.py)

The scored pipeline works on a generic table whose rows are association
lists of cells, so that the absence of a whole column is representable
(the `dropna(subset=...)` call of `calculate_fairness_score` raises
`KeyError` exactly when a required column is absent from the frame). -/

structure PTable where
  cols : List String
  rows : List PRow

/-- Required indicator columns of the scorer. -/
def requiredCols : List String :=
  ["gini", "gender_ratio_labor", "governance", "school_enrollment",
   "life_expectancy", "access_to_electricity"]

/-- Normalized component columns summed into the fairness score. -/
def scoreComponents : List String :=
  ["norm_gini", "norm_gender_labor", "norm_governance",
   "norm_school", "norm_life_expectancy", "norm_electricity"]

/-- Minimum of a rational series (series are non-empty in every use; the
default of the empty list is irrelevant). -/
def listMin : List ℚ → ℚ
  | [] => 0
  | x :: xs => xs.foldl min x

/-- Maximum of a rational series. -/
def listMax : List ℚ → ℚ
  | [] => 0
  | x :: xs => xs.foldl max x

/-- Model of `normalize` of src/utils.py: a zero-variance series maps every
entry to the scalar 0.5 (which pandas broadcasts over the column),
otherwise min-max scaling is applied entrywise. -/
def normalize (l : List ℚ) : List ℚ :=
  if listMax l = listMin l then l.map (fun _ => (1 : ℚ) / 2)
  else l.map (fun x => (x - listMin l) / (listMax l - listMin l))

/-- Numeric contents of a list of cells, or failure if any cell is not a
number (pandas raises on arithmetic over such a column and the caller of
`process_year_data` catches the exception). -/
def allNums : List PyVal → Option (List ℚ)
  | [] => some []
  | PyVal.num q :: rest => (allNums rest).map (fun qs => q :: qs)
  | _ => Option.none

/-- Numeric values of one column across a group of rows. -/
def colVals (c : String) (g : List PRow) : Option (List ℚ) :=
  allNums (g.map (fun r => getCell r c))

/-- Numeric reading of a cell with a default, as used by the row-wise
`sum(axis=1)` (whose skipna policy turns a missing cell into 0). -/
def toNumD (v : PyVal) (d : ℚ) : ℚ :=
  match v with
  | PyVal.num q => q
  | _ => d

/-- Model of `process_year_data` of src/utils.py on one year group: add the
transformed `gini_score` column and the six normalized component columns.
Non-numeric data in a required column makes the pandas arithmetic raise,
which the caller catches. -/
def processYearData (g : List PRow) : Except PyError (List PRow) :=
  match colVals "gini" g, colVals "gender_ratio_labor" g, colVals "governance" g,
      colVals "school_enrollment" g, colVals "life_expectancy" g,
      colVals "access_to_electricity" g with
  | some gin, some gen, some gov, some sch, some lif, some ele =>
    let giniScore := gin.map (fun x => 100 - x)
    let ngin := normalize giniScore
    let ngen := normalize gen
    let ngov := normalize gov
    let nsch := normalize sch
    let nlif := normalize lif
    let nele := normalize ele
    Except.ok ((List.range g.length).map (fun i =>
      let r0 := g.getD i []
      let r1 := setCell r0 "gini_score" (PyVal.num (giniScore.getD i 0))
      let r2 := setCell r1 "norm_gini" (PyVal.num (ngin.getD i 0))
      let r3 := setCell r2 "norm_gender_labor" (PyVal.num (ngen.getD i 0))
      let r4 := setCell r3 "norm_governance" (PyVal.num (ngov.getD i 0))
      let r5 := setCell r4 "norm_school" (PyVal.num (nsch.getD i 0))
      let r6 := setCell r5 "norm_life_expectancy" (PyVal.num (nlif.getD i 0))
      setCell r6 "norm_electricity" (PyVal.num (nele.getD i 0))))
  | _, _, _, _, _, _ => Except.error PyError.typeError

/-- Fuelled worker of `groupByKey` (the fuel, always instantiated with the
list length, only makes the recursion structural). -/
def groupByKeyF {α κ : Type} (beqK : κ → κ → Bool) (key : α → κ) :
    ℕ → List α → List (List α)
  | _, [] => []
  | 0, _ => []
  | fuel + 1, x :: xs =>
    (x :: xs.filter (fun y => beqK (key y) (key x)))
      :: groupByKeyF beqK key fuel (xs.filter (fun y => !beqK (key y) (key x)))

/-- Grouping of rows by a key computed with an equality test, keeping the
rows of each group in order and the groups in order of first appearance
(pandas sorts the group keys; no modelled claim depends on group order). -/
def groupByKey {α κ : Type} (beqK : κ → κ → Bool) (key : α → κ) (l : List α) :
    List (List α) :=
  groupByKeyF beqK key l.length l

/-- Equality test on cells used as group keys.  Container cells do not occur
as date keys; they are compared structurally only as far as needed. -/
def cellBeq : PyVal → PyVal → Bool
  | PyVal.none, PyVal.none => true
  | PyVal.bool a, PyVal.bool b => a == b
  | PyVal.num a, PyVal.num b => a == b
  | PyVal.str a, PyVal.str b => a == b
  | _, _ => false

/-- Date cell of a row, the key of the per-year grouping. -/
def dateKey (r : PRow) : PyVal :=
  getCell r "date"

/-- Sequencing of `groupby("date").apply(process_year_data)`: process every
group and concatenate, the first exception aborting the whole apply (the
caller catches it). -/
def seqGroups : List (List PRow) → Except PyError (List PRow)
  | [] => Except.ok []
  | g :: gs =>
    match processYearData g with
    | Except.error e => Except.error e
    | Except.ok a =>
      match seqGroups gs with
      | Except.error e => Except.error e
      | Except.ok b => Except.ok (a ++ b)

/-- Row-wise fairness sum `score_df[score_components].sum(axis=1)`. -/
def fairSum (r : PRow) : ℚ :=
  scoreComponents.foldl (fun acc c => acc + toNumD (getCell r c) 0) 0

/-- Identifying columns of the narrow components table. -/
def idCols3 : List String :=
  ["country", "countryiso3code", "date"]

/-- Model of `calculate_fairness_score` of src/utils.py.  In order:
`df.dropna(subset=required_cols)` raises `KeyError` when a required column
is absent from the frame (including the completely empty frame); rows with
a null required cell are dropped; an empty remainder yields a warning and
two empty frames; the per-year grouped apply runs inside a try block whose
except branch yields two empty frames; the normalized component columns
are checked for presence; the fairness score column is summed in; and the
narrow components table is selected (a missing identifying column would
raise `KeyError` outside any try block). -/
def calcFairnessScore (t : PTable) : Except PyError (PTable × PTable) :=
  if requiredCols.any (fun c => !t.cols.contains c) then Except.error PyError.keyError
  else
    let rows1 := t.rows.filter (fun r => requiredCols.all (fun c => !(getCell r c).isNone))
    if rows1.isEmpty then Except.ok (PTable.mk [] [], PTable.mk [] [])
    else if !t.cols.contains "date" then Except.ok (PTable.mk [] [], PTable.mk [] [])
    else
      let withDate := rows1.filter (fun r => !(dateKey r).isNone)
      let groups := groupByKey cellBeq dateKey withDate
      match seqGroups groups with
      | Except.error _ => Except.ok (PTable.mk [] [], PTable.mk [] [])
      | Except.ok scoreRows =>
        let scoreCols := if groups.isEmpty then t.cols
          else t.cols ++ ("gini_score" :: scoreComponents)
        if !(scoreComponents.all (fun c => scoreCols.contains c)) then
          Except.ok (PTable.mk [] [], PTable.mk [] [])
        else
          let scored := scoreRows.map (fun r =>
            setCell r "fairness_score" (PyVal.num (fairSum r)))
          let allCols := scoreCols ++ ["fairness_score"]
          if (idCols3 ++ scoreComponents).any (fun c => !allCols.contains c) then
            Except.error PyError.keyError
          else
            Except.ok (PTable.mk allCols scored,
              PTable.mk (idCols3 ++ scoreComponents)
                (scored.map (fun r =>
                  (idCols3 ++ scoreComponents).map (fun c => (c, getCell r c)))))

/-! ## Concrete inputs used by witnesses and counterexamples -/

/-- World Bank record of the specification scenario. -/
def wbScenarioRecord : PyVal := PyVal.dict [
  ("country", PyVal.dict [("value", PyVal.str "Brazil")]),
  ("countryiso3code", PyVal.str "BRA"),
  ("date", PyVal.str "2020"),
  ("value", PyVal.str "15000.5")]

/-- World Bank response envelope of the specification scenario: a metadata
object followed by the record list. -/
def wbScenarioBody : PyVal :=
  PyVal.list [PyVal.dict [("page", PyVal.num 1)], PyVal.list [wbScenarioRecord]]

/-- Canonical row the adapter actually produces from the scenario record. -/
def wbScenarioRow : CRow :=
  CRow.mk (PyVal.str "Brazil") (PyVal.str "BRA") 2020 (PyVal.str "15000.5")

/-- Canonical table the adapter actually produces from the scenario body. -/
def wbScenarioTable : CTable := CTable.mk std4 [wbScenarioRow]

/-- World Bank envelope whose records lack expected columns. -/
def wbMissingColsBody : PyVal :=
  PyVal.list [PyVal.dict [], PyVal.list [PyVal.dict [("country", PyVal.str "Brazil")]]]

/-- World Bank envelope whose single record has a null value, leaving no
row after cleaning. -/
def wbAllNullBody : PyVal :=
  PyVal.list [PyVal.dict [], PyVal.list [PyVal.dict [
    ("country", PyVal.str "Brazil"), ("countryiso3code", PyVal.str "BRA"),
    ("date", PyVal.str "2020"), ("value", PyVal.none)]]]

/-- IMF body whose only data point is a sentinel, leaving no valid numeric
record. -/
def imfSentinelTop : List (String × PyVal) :=
  [("values", PyVal.dict [("IND",
    PyVal.dict [("usa", PyVal.dict [("2020", PyVal.str "--")])])])]

/-- Data Commons body whose only entity carries an empty observation list,
yielding no valid records. -/
def dcNoObsTop : List (String × PyVal) :=
  [("data", PyVal.dict [("country/USA", PyVal.dict [("IND", PyVal.list [])])])]

/-- One-row merged table with complete indicator data, used to exercise the
scorer. -/
def scoreWitnessTable : PTable := PTable.mk
  (["country", "countryiso3code", "date"] ++ requiredCols)
  [[("country", PyVal.str "Atlantis"), ("countryiso3code", PyVal.str "ATL"),
    ("date", PyVal.num 2020), ("gini", PyVal.num 30),
    ("gender_ratio_labor", PyVal.num 80), ("governance", PyVal.num 1),
    ("school_enrollment", PyVal.num 90), ("life_expectancy", PyVal.num 70),
    ("access_to_electricity", PyVal.num 95)]]

/-- First component of a scorer result (empty table on a raised error). -/
def okFst (e : Except PyError (PTable × PTable)) : PTable :=
  match e with
  | Except.ok sc => sc.1
  | Except.error _ => PTable.mk [] []

/-- Second component of a scorer result (empty table on a raised error). -/
def okSnd (e : Except PyError (PTable × PTable)) : PTable :=
  match e with
  | Except.ok sc => sc.2
  | Except.error _ => PTable.mk [] []

/-- Fetched table with a duplicated `(countryiso3code, date)` key. -/
def dupKeyTable : List CanRow :=
  [CanRow.mk "Atlantis" "ATL" 2000 1, CanRow.mk "Atlantis" "ATL" 2000 2]

/-- Two-row merged table with unique join keys, used for the self-join
witness. -/
def selfJoinTable : MTab := MTab.mk ["gini"]
  [MRow.mk "Atlantis" "ATL" 2000 [("gini", PyVal.num 1)],
   MRow.mk "Borduria" "BOR" 2001 [("gini", PyVal.num 2)]]

/-! ## Helper lemmas -/

theorem isNone_eq_false {v : PyVal} : v.isNone = false ↔ v ≠ PyVal.none := by
  cases v <;> simp [PyVal.isNone]

theorem lookup_filter_ne (r : PRow) (c : String) :
    (r.filter (fun p => p.1 != c)).lookup c = Option.none := by
  induction r with
  | nil => rfl
  | cons p r ih =>
    by_cases h : p.1 = c
    · simpa [List.filter_cons, h] using ih
    · have hb : (c == p.1) = false := beq_false_of_ne (Ne.symm h)
      simp [List.filter_cons, h, List.lookup, hb, ih]

theorem lookup_append_of_none {b : PRow} {c : String} : ∀ {a : PRow},
    a.lookup c = Option.none → (a ++ b).lookup c = b.lookup c := by
  intro a
  induction a with
  | nil => intro _; rfl
  | cons p a ih =>
    rcases p with ⟨k, w⟩
    intro h
    rw [List.lookup_cons] at h
    rw [List.cons_append, List.lookup_cons]
    by_cases hc : c = k
    · rw [beq_iff_eq.mpr hc] at h
      exact Option.noConfusion h
    · rw [beq_false_of_ne hc] at h ⊢
      exact ih h

theorem lookup_filter_preserve {c c' : String} (h : c' ≠ c) : ∀ {r : PRow},
    (r.filter (fun p => p.1 != c)).lookup c' = r.lookup c' := by
  intro r
  induction r with
  | nil => rfl
  | cons p r ih =>
    rcases p with ⟨k, w⟩
    by_cases hp : k = c
    · have hne : (c' == k) = false := beq_false_of_ne (fun hx => h (hx.trans hp))
      have hf : ((k, w).1 != c) = false := by simp [hp]
      rw [List.filter_cons, hf]
      simp only [Bool.false_eq_true, if_false]
      rw [ih, List.lookup_cons, hne]
    · have hf : ((k, w).1 != c) = true := by simp [hp]
      rw [List.filter_cons, hf]
      simp only [if_true]
      rw [List.lookup_cons, List.lookup_cons]
      by_cases hq : c' = k
      · rw [beq_iff_eq.mpr hq]
      · rw [beq_false_of_ne hq]
        exact ih

theorem getCell_setCell_same (r : PRow) (c : String) (v : PyVal) :
    getCell (setCell r c v) c = v := by
  unfold getCell setCell
  rw [lookup_append_of_none (lookup_filter_ne r c)]
  simp [List.lookup]

theorem lookup_append_of_some {c : String} {w : PyVal} (b : PRow) : ∀ {a : PRow},
    a.lookup c = some w → (a ++ b).lookup c = some w := by
  intro a
  induction a with
  | nil => intro h; exact Option.noConfusion h
  | cons p a ih =>
    rcases p with ⟨k, u⟩
    intro h
    rw [List.lookup_cons] at h
    rw [List.cons_append, List.lookup_cons]
    by_cases hc : c = k
    · rw [beq_iff_eq.mpr hc] at h ⊢
      exact h
    · rw [beq_false_of_ne hc] at h ⊢
      exact ih h

theorem getCell_setCell_ne (r : PRow) {c c' : String} (v : PyVal) (h : c' ≠ c) :
    getCell (setCell r c v) c' = getCell r c' := by
  unfold getCell setCell
  rcases hl : (r.filter (fun p => p.1 != c)).lookup c' with _ | w
  · rw [lookup_append_of_none hl]
    rw [lookup_filter_preserve h] at hl
    have hb : (c' == c) = false := beq_false_of_ne h
    simp [List.lookup, hb, hl]
  · rw [lookup_append_of_some _ hl]
    rw [lookup_filter_preserve h] at hl
    simp [hl]

theorem foldl_min_le_init : ∀ (xs : List ℚ) (a : ℚ), xs.foldl min a ≤ a := by
  intro xs
  induction xs with
  | nil => intro a; exact le_refl a
  | cons x xs ih => intro a; exact le_trans (ih (min a x)) (min_le_left a x)

theorem foldl_min_le_mem : ∀ (xs : List ℚ) (a y : ℚ), y ∈ xs → xs.foldl min a ≤ y := by
  intro xs
  induction xs with
  | nil => intro a y hy; exact absurd hy (List.not_mem_nil y)
  | cons x xs ih =>
    intro a y hy
    rcases List.mem_cons.mp hy with h | h
    · subst h; exact le_trans (foldl_min_le_init xs (min a y)) (min_le_right a y)
    · exact ih (min a x) y h

theorem foldl_min_mem : ∀ (xs : List ℚ) (a : ℚ), xs.foldl min a ∈ a :: xs := by
  intro xs
  induction xs with
  | nil => intro a; exact List.mem_singleton.mpr rfl
  | cons x xs ih =>
    intro a
    rw [List.foldl_cons]
    rcases List.mem_cons.mp (ih (min a x)) with h | h
    · rcases min_choice a x with hc | hc
      · rw [h, hc]; exact List.mem_cons_self a (x :: xs)
      · rw [h, hc]; exact List.mem_cons_of_mem a (List.mem_cons_self x xs)
    · exact List.mem_cons_of_mem a (List.mem_cons_of_mem x h)

theorem foldl_max_ge_init : ∀ (xs : List ℚ) (a : ℚ), a ≤ xs.foldl max a := by
  intro xs
  induction xs with
  | nil => intro a; exact le_refl a
  | cons x xs ih => intro a; exact le_trans (le_max_left a x) (ih (max a x))

theorem foldl_max_ge_mem : ∀ (xs : List ℚ) (a y : ℚ), y ∈ xs → y ≤ xs.foldl max a := by
  intro xs
  induction xs with
  | nil => intro a y hy; exact absurd hy (List.not_mem_nil y)
  | cons x xs ih =>
    intro a y hy
    rcases List.mem_cons.mp hy with h | h
    · subst h; exact le_trans (le_max_right a y) (foldl_max_ge_init xs (max a y))
    · exact ih (max a x) y h

theorem foldl_max_mem : ∀ (xs : List ℚ) (a : ℚ), xs.foldl max a ∈ a :: xs := by
  intro xs
  induction xs with
  | nil => intro a; exact List.mem_singleton.mpr rfl
  | cons x xs ih =>
    intro a
    rw [List.foldl_cons]
    rcases List.mem_cons.mp (ih (max a x)) with h | h
    · rcases max_choice a x with hc | hc
      · rw [h, hc]; exact List.mem_cons_self a (x :: xs)
      · rw [h, hc]; exact List.mem_cons_of_mem a (List.mem_cons_self x xs)
    · exact List.mem_cons_of_mem a (List.mem_cons_of_mem x h)

theorem listMin_le {l : List ℚ} {y : ℚ} (hy : y ∈ l) : listMin l ≤ y := by
  cases l with
  | nil => exact absurd hy (List.not_mem_nil y)
  | cons x xs =>
    rcases List.mem_cons.mp hy with h | h
    · subst h; exact foldl_min_le_init xs y
    · exact foldl_min_le_mem xs x y h

theorem le_listMax {l : List ℚ} {y : ℚ} (hy : y ∈ l) : y ≤ listMax l := by
  cases l with
  | nil => exact absurd hy (List.not_mem_nil y)
  | cons x xs =>
    rcases List.mem_cons.mp hy with h | h
    · subst h; exact foldl_max_ge_init xs y
    · exact foldl_max_ge_mem xs x y h

theorem listMin_mem {l : List ℚ} (h : l ≠ []) : listMin l ∈ l := by
  cases l with
  | nil => exact absurd rfl h
  | cons x xs => exact foldl_min_mem xs x

theorem listMax_mem {l : List ℚ} (h : l ≠ []) : listMax l ∈ l := by
  cases l with
  | nil => exact absurd rfl h
  | cons x xs => exact foldl_max_mem xs x

theorem normalize_length (l : List ℚ) : (normalize l).length = l.length := by
  unfold normalize
  split <;> simp

theorem listMin_lt_listMax {l : List ℚ} (hl : l ≠ [])
    (hne : listMax l ≠ listMin l) : listMin l < listMax l := by
  have h1 : listMin l ≤ listMax l := le_listMax (listMin_mem hl)
  exact lt_of_le_of_ne h1 (fun he => hne he.symm)

theorem normalize_mem_bounds {l : List ℚ} {y : ℚ} (hy : y ∈ normalize l) :
    0 ≤ y ∧ y ≤ 1 := by
  unfold normalize at hy
  split at hy
  · rcases List.mem_map.mp hy with ⟨x, _, rfl⟩
    norm_num
  · rename_i hne
    rcases List.mem_map.mp hy with ⟨x, hx, rfl⟩
    have hl : l ≠ [] := by
      intro he
      subst he
      exact absurd hx (List.not_mem_nil x)
    have hxl : listMin l ≤ x := listMin_le hx
    have hxu : x ≤ listMax l := le_listMax hx
    have hpos : 0 < listMax l - listMin l :=
      sub_pos.mpr (listMin_lt_listMax hl hne)
    constructor
    · exact div_nonneg (sub_nonneg.mpr hxl) (le_of_lt hpos)
    · rw [div_le_one hpos]
      linarith

theorem getD_map_of_lt (f : ℚ → ℚ) {l : List ℚ} {i : ℕ} (h : i < l.length) :
    (l.map f).getD i 0 = f (l.getD i 0) := by
  have hm : i < (l.map f).length := by
    rw [List.length_map]
    exact h
  rw [List.getD_eq_getElem _ _ hm, List.getD_eq_getElem _ _ h, List.getElem_map]

theorem allNums_length : ∀ {xs : List PyVal} {qs : List ℚ},
    allNums xs = some qs → qs.length = xs.length := by
  intro xs
  induction xs with
  | nil =>
    intro qs h
    unfold allNums at h
    injection h with h
    subst h
    rfl
  | cons x xs ih =>
    intro qs h
    cases x <;> unfold allNums at h <;> try exact Option.noConfusion h
    rename_i q
    rcases hx : allNums xs with _ | qs0 <;> rw [hx] at h
    · exact Option.noConfusion h
    · injection h with h
      subst h
      simp [ih hx]

theorem seqGroups_mem : ∀ {gs : List (List PRow)} {out : List PRow} {r : PRow},
    seqGroups gs = Except.ok out → r ∈ out →
    ∃ g ∈ gs, ∃ og, processYearData g = Except.ok og ∧ r ∈ og := by
  intro gs
  induction gs with
  | nil =>
    intro out r h hr
    unfold seqGroups at h
    injection h with h
    subst h
    exact absurd hr (List.not_mem_nil r)
  | cons g gs ih =>
    intro out r h hr
    unfold seqGroups at h
    cases hp : processYearData g with
    | error e => rw [hp] at h; exact Except.noConfusion h
    | ok a =>
      rw [hp] at h
      cases hs : seqGroups gs with
      | error e => rw [hs] at h; exact Except.noConfusion h
      | ok b =>
        rw [hs] at h
        injection h with h
        subst h
        rcases List.mem_append.mp hr with hra | hrb
        · exact ⟨g, List.mem_cons_self g gs, a, hp, hra⟩
        · rcases ih hs hrb with ⟨g2, hg2, og, hog, hr2⟩
          exact ⟨g2, List.mem_cons_of_mem g hg2, og, hog, hr2⟩

theorem replaceAllF_no_occur (pat rep : List Char) : ∀ (fuel : ℕ) (l : List Char),
    l.length ≤ fuel → occursL pat l = false → replaceAllF pat rep fuel l = l := by
  intro fuel
  induction fuel with
  | zero => intro l _ _; cases l <;> rfl
  | succ fuel ih =>
    intro l hl ho
    cases l with
    | nil => rfl
    | cons c rest =>
      have ho2 : pat.isPrefixOf (c :: rest) = false ∧ occursL pat rest = false := by
        simpa [occursL] using ho
      have hlen : rest.length ≤ fuel := by
        simp only [List.length_cons] at hl
        omega
      simp [replaceAllF, ho2.1, ih rest hlen ho2.2]

theorem replaceAllF_match (p : Char) (ps rep tail : List Char) (fuel : ℕ)
    (hf : tail.length ≤ fuel) (ho : occursL (p :: ps) tail = false) :
    replaceAllF (p :: ps) rep (fuel + 1) ((p :: ps) ++ tail) = rep ++ tail := by
  have hpre : (p :: ps).isPrefixOf (p :: (ps ++ tail)) = true := by
    rw [← List.cons_append]
    exact List.isPrefixOf_iff_prefix.mpr (List.prefix_append _ _)
  rw [List.cons_append]
  have hdrop : (ps ++ tail).drop ((p :: ps).length - 1) = tail := by
    simp only [List.length_cons, Nat.add_sub_cancel]
    exact List.drop_left ps tail
  simp [replaceAllF, hpre, hdrop, replaceAllF_no_occur (p :: ps) rep fuel tail hf ho]

theorem replaceAll_strip {pat : List Char} (rep tail : List Char) (hne : pat ≠ [])
    (ho : occursL pat tail = false) :
    replaceAll pat rep (pat ++ tail) = rep ++ tail := by
  cases pat with
  | nil => exact absurd rfl hne
  | cons p ps =>
    unfold replaceAll
    have hlen : ((p :: ps) ++ tail).length = (ps.length + tail.length) + 1 := by
      simp [List.length_append, List.length_cons]
    rw [hlen]
    exact replaceAllF_match p ps rep tail _ (by omega) ho

theorem filter_mkey_single : ∀ {rows : List MRow} {a : MRow},
    (rows.map mkey).Nodup → a ∈ rows →
    rows.filter (fun b => decide (mkey b = mkey a)) = [a] := by
  intro rows
  induction rows with
  | nil => intro a _ ha; exact absurd ha (List.not_mem_nil a)
  | cons x rows ih =>
    intro a hnd ha
    rw [List.map_cons, List.nodup_cons] at hnd
    rcases List.mem_cons.mp ha with h | h
    · subst h
      rw [List.filter_cons]
      have hd : decide (mkey a = mkey a) = true := by simp
      rw [hd]
      simp only [if_true]
      have hrest : rows.filter (fun b => decide (mkey b = mkey a)) = [] := by
        rw [List.filter_eq_nil_iff]
        intro b hb hdec
        have hbe : mkey b = mkey a := of_decide_eq_true hdec
        exact hnd.1 (hbe ▸ List.mem_map.mpr ⟨b, hb, rfl⟩)
      rw [hrest]
    · rw [List.filter_cons]
      have hx : decide (mkey x = mkey a) = false := by
        apply decide_eq_false
        intro hxa
        exact hnd.1 (hxa ▸ List.mem_map.mpr ⟨a, h, rfl⟩)
      rw [hx]
      simp only [Bool.false_eq_true, if_false]
      exact ih hnd.2 h

theorem flatMap_singleton_map {α β : Type} (f : α → List β) (g : α → β) :
    ∀ (l : List α), (∀ a ∈ l, f a = [g a]) → l.flatMap f = l.map g := by
  intro l
  induction l with
  | nil => intro _; rfl
  | cons x l ih =>
    intro h
    rw [List.flatMap_cons, h x (List.mem_cons_self x l), List.map_cons,
      ih (fun a ha => h a (List.mem_cons_of_mem x ha))]
    rfl

theorem dropDupByF_subset {α κ : Type} [DecidableEq κ] (key : α → κ) :
    ∀ (fuel : ℕ) (l : List α) (x : α), x ∈ dropDupByF key fuel l → x ∈ l := by
  intro fuel
  induction fuel with
  | zero => intro l x hx; cases l <;> exact hx
  | succ fuel ih =>
    intro l x hx
    cases l with
    | nil => exact hx
    | cons r rs =>
      have heq : dropDupByF key (fuel + 1) (r :: rs)
          = r :: dropDupByF key fuel (rs.filter (fun y => !decide (key y = key r))) := rfl
      rw [heq] at hx
      rcases List.mem_cons.mp hx with h | h
      · rw [h]; exact List.mem_cons_self r rs
      · exact List.mem_cons_of_mem r (List.mem_of_mem_filter (ih _ x h))

theorem dropDupByF_nodup {α κ : Type} [DecidableEq κ] (key : α → κ) :
    ∀ (fuel : ℕ) (l : List α), l.length ≤ fuel →
    ((dropDupByF key fuel l).map key).Nodup := by
  intro fuel
  induction fuel with
  | zero =>
    intro l hl
    have hz : l = [] := List.length_eq_zero.mp (Nat.le_zero.mp hl)
    subst hz
    simp [dropDupByF]
  | succ fuel ih =>
    intro l hl
    cases l with
    | nil => simp [dropDupByF]
    | cons r rs =>
      have heq : dropDupByF key (fuel + 1) (r :: rs)
          = r :: dropDupByF key fuel (rs.filter (fun y => !decide (key y = key r))) := rfl
      rw [heq, List.map_cons, List.nodup_cons]
      constructor
      · intro hmem
        rcases List.mem_map.mp hmem with ⟨x, hx, hkey⟩
        have hx2 := dropDupByF_subset key fuel _ x hx
        have hcond := (List.mem_filter.mp hx2).2
        simp only [Bool.not_eq_true', decide_eq_false_iff_not] at hcond
        exact hcond hkey
      · apply ih
        have h1 : (rs.filter (fun y => !decide (key y = key r))).length ≤ rs.length :=
          List.length_filter_le _ _
        simp only [List.length_cons] at hl
        omega

theorem wbClean_mem {rows : List PRow} {r : CRow} (hr : r ∈ wbClean rows) :
    r.indicator_value ≠ PyVal.none ∧ r.country ≠ PyVal.none := by
  unfold wbClean at hr
  rcases List.mem_map.mp hr with ⟨t3, ht3, hr3⟩
  rcases List.mem_filterMap.mp ht3 with ⟨t2, ht2, hmap⟩
  rcases List.mem_filter.mp ht2 with ⟨_, hcond⟩
  rcases Bool.and_eq_true_iff.mp hcond with ⟨hv, hc⟩
  rcases Option.map_eq_some'.mp hmap with ⟨q, _, ht32⟩
  subst ht32
  subst hr3
  have hv2 : (t2.2.2.2).isNone = false := by simpa using hv
  have hc2 : (t2.1).isNone = false := by simpa using hc
  exact ⟨isNone_eq_false.mp hv2, isNone_eq_false.mp hc2⟩

theorem distinct_imp_max_ne_min {l : List ℚ} (hd : ∃ a ∈ l, ∃ b ∈ l, a ≠ b) :
    listMax l ≠ listMin l := by
  rcases hd with ⟨a, ha, b, hb, hab⟩
  intro he
  apply hab
  have h1 : a ≤ listMax l := le_listMax ha
  have h2 : listMin l ≤ b := listMin_le hb
  have h3 : b ≤ listMax l := le_listMax hb
  have h4 : listMin l ≤ a := listMin_le ha
  rw [he] at h1 h3
  exact le_antisymm (le_trans h1 h2) (le_trans h3 h4)

theorem getD_mem_normalize {l : List ℚ} {i : ℕ} (h : i < (normalize l).length) :
    (normalize l).getD i 0 ∈ normalize l := by
  rw [List.getD_eq_getElem _ _ h]
  exact List.getElem_mem h

theorem colVals_length {c : String} {g : List PRow} {qs : List ℚ}
    (h : colVals c g = some qs) : qs.length = g.length := by
  unfold colVals at h
  exact (allNums_length h).trans (List.length_map _ _)

theorem processYearData_components {g : List PRow} {out : List PRow}
    (h : processYearData g = Except.ok out) :
    ∀ r ∈ out, ∀ c ∈ scoreComponents,
      ∃ v, getCell r c = PyVal.num v ∧ 0 ≤ v ∧ v ≤ 1 := by
  unfold processYearData at h
  split at h
  case _ gin gen gov sch lif ele hgin hgen hgov hsch hlif hele =>
    injection h with hout
    subst hout
    intro r hr c hc
    rcases List.mem_map.mp hr with ⟨i, hir, hbuild⟩
    have hi : i < g.length := List.mem_range.mp hir
    subst hbuild
    dsimp only
    have hb : ∀ (l : List ℚ), l.length = g.length →
        0 ≤ (normalize l).getD i 0 ∧ (normalize l).getD i 0 ≤ 1 := by
      intro l hlen
      apply normalize_mem_bounds
      apply getD_mem_normalize
      rw [normalize_length, hlen]
      exact hi
    simp only [scoreComponents, List.mem_cons, List.mem_singleton,
      List.not_mem_nil, or_false] at hc
    rcases hc with rfl | rfl | rfl | rfl | rfl | rfl
    · refine ⟨(normalize (gin.map (fun x => 100 - x))).getD i 0, ?_, ?_⟩
      · rw [getCell_setCell_ne _ _ (by decide), getCell_setCell_ne _ _ (by decide),
          getCell_setCell_ne _ _ (by decide), getCell_setCell_ne _ _ (by decide),
          getCell_setCell_ne _ _ (by decide), getCell_setCell_same]
      · exact hb _ (by rw [List.length_map]; exact colVals_length hgin)
    · refine ⟨(normalize gen).getD i 0, ?_, ?_⟩
      · rw [getCell_setCell_ne _ _ (by decide), getCell_setCell_ne _ _ (by decide),
          getCell_setCell_ne _ _ (by decide), getCell_setCell_ne _ _ (by decide),
          getCell_setCell_same]
      · exact hb _ (colVals_length hgen)
    · refine ⟨(normalize gov).getD i 0, ?_, ?_⟩
      · rw [getCell_setCell_ne _ _ (by decide), getCell_setCell_ne _ _ (by decide),
          getCell_setCell_ne _ _ (by decide), getCell_setCell_same]
      · exact hb _ (colVals_length hgov)
    · refine ⟨(normalize sch).getD i 0, ?_, ?_⟩
      · rw [getCell_setCell_ne _ _ (by decide), getCell_setCell_ne _ _ (by decide),
          getCell_setCell_same]
      · exact hb _ (colVals_length hsch)
    · refine ⟨(normalize lif).getD i 0, ?_, ?_⟩
      · rw [getCell_setCell_ne _ _ (by decide), getCell_setCell_same]
      · exact hb _ (colVals_length hlif)
    · refine ⟨(normalize ele).getD i 0, ?_, ?_⟩
      · rw [getCell_setCell_same]
      · exact hb _ (colVals_length hele)
  case _ => exact Except.noConfusion h

theorem fairSum_bounds {r : PRow}
    (h : ∀ c ∈ scoreComponents, ∃ v, getCell r c = PyVal.num v ∧ 0 ≤ v ∧ v ≤ 1) :
    0 ≤ fairSum r ∧ fairSum r ≤ 6 := by
  obtain ⟨v1, he1, h1l, h1u⟩ := h "norm_gini" (by simp [scoreComponents])
  obtain ⟨v2, he2, h2l, h2u⟩ := h "norm_gender_labor" (by simp [scoreComponents])
  obtain ⟨v3, he3, h3l, h3u⟩ := h "norm_governance" (by simp [scoreComponents])
  obtain ⟨v4, he4, h4l, h4u⟩ := h "norm_school" (by simp [scoreComponents])
  obtain ⟨v5, he5, h5l, h5u⟩ := h "norm_life_expectancy" (by simp [scoreComponents])
  obtain ⟨v6, he6, h6l, h6u⟩ := h "norm_electricity" (by simp [scoreComponents])
  unfold fairSum scoreComponents
  simp only [List.foldl_cons, List.foldl_nil, he1, he2, he3, he4, he5, he6]
  unfold toNumD
  constructor <;> linarith

/-! ## Claim theorems -/

/-- Claim C1 (code bug): the claim states that `calculate_fairness_score`
never raises on a merged table lacking required indicator columns and
instead warns and returns two empty tables.  The code does the opposite:
for every input table missing at least one of the six required columns
(including the completely empty table), `df.dropna(subset=required_cols)`
raises `KeyError` before any guard runs. -/
theorem c1_missing_required_column_raises (t : PTable)
    (hmiss : ∃ c ∈ requiredCols, c ∉ t.cols) :
    calcFairnessScore t = Except.error PyError.keyError := by
  have hany : (requiredCols.any (fun c => !t.cols.contains c)) = true := by
    rcases hmiss with ⟨c, hc, hnc⟩
    exact List.any_eq_true.mpr ⟨c, hc, by simp [hnc]⟩
  unfold calcFairnessScore
  rw [hany]
  rfl

/-- Witness for C1: the completely empty table lacks the `gini` column and
the scorer evaluates to a raised `KeyError` on it. -/
theorem c1_missing_required_column_raises_witness :
    (∃ c ∈ requiredCols, c ∉ (PTable.mk [] []).cols) ∧
    calcFairnessScore (PTable.mk [] []) = Except.error PyError.keyError :=
  ⟨⟨"gini", by simp [requiredCols], by simp⟩,
    c1_missing_required_column_raises (PTable.mk [] [])
      ⟨"gini", by simp [requiredCols], by simp⟩⟩

/-- Claim C5 counterexample: not every malformed response shape is absorbed
by the adapters.  A JSON body that is a bare number makes the World Bank
adapter raise `TypeError` at `len(data)`, and a JSON body that is a list
makes the IMF adapter raise `AttributeError` at `data.get("values", {})`;
neither failure yields the empty canonical table the claim promises. -/
theorem c5_counterexample :
    wbProcess (FetchOutcome.ok (PyVal.num 5)) = Except.error PyError.typeError ∧
    imfProcess (fun s => s) "NGDP_RPCH" (FetchOutcome.ok (PyVal.list [PyVal.num 1]))
      = Except.error PyError.attributeError :=
  ⟨rfl, rfl⟩

/-- Claim C5 (amended): for every adapter the failures of the fetch block —
network failure, HTTP error status, JSON-decode failure — are absorbed into
a notification plus the empty canonical table with the four standard
columns, and so are the explicitly guarded response deviations: for the
World Bank adapter a falsy body, a short envelope, a null record element,
an empty record list, missing expected columns, and no row surviving the
cleaning; for the IMF adapter a missing or falsy data blob and a response
with no valid numeric data point; for the Data Commons adapter an empty
data object and a response yielding no valid records.  Not every malformed
decoded body is absorbed, however (see the counterexample). -/
theorem c5_amended_failure_absorption :
    (∀ (resolver : String → String) (indicator dateRange : String) (o : FetchOutcome),
      o.isFailure = true →
      wbProcess o = Except.ok emptyC ∧
      imfProcess resolver indicator o = Except.ok emptyC ∧
      dcProcess resolver indicator dateRange o = Except.ok emptyC) ∧
    (∀ data : PyVal, pyTruthy data = false →
      wbProcess (FetchOutcome.ok data) = Except.ok emptyC) ∧
    (∀ (data : PyVal) (n : ℕ), pyTruthy data = true →
      pyLen data = Except.ok n → n < 2 →
      wbProcess (FetchOutcome.ok data) = Except.ok emptyC) ∧
    (∀ (data second : PyVal) (n : ℕ), pyTruthy data = true →
      pyLen data = Except.ok n → ¬n < 2 → pyItem1 data = Except.ok second →
      second.isNone = true →
      wbProcess (FetchOutcome.ok data) = Except.ok emptyC) ∧
    (∀ (data second : PyVal) (n : ℕ) (rows0 : List PRow),
      pyTruthy data = true → pyLen data = Except.ok n → ¬n < 2 →
      pyItem1 data = Except.ok second → second.isNone = false →
      fromRecords second = Except.ok rows0 → rows0.isEmpty = true →
      wbProcess (FetchOutcome.ok data) = Except.ok emptyC) ∧
    (∀ (data second : PyVal) (n : ℕ) (rows0 : List PRow),
      pyTruthy data = true → pyLen data = Except.ok n → ¬n < 2 →
      pyItem1 data = Except.ok second → second.isNone = false →
      fromRecords second = Except.ok rows0 → rows0.isEmpty = false →
      (colsOf rows0).contains "country" = true →
      (["country", "countryiso3code", "date", "value"].all
        (fun c => (colsOf rows0).contains c)) = false →
      wbProcess (FetchOutcome.ok data) = Except.ok emptyC) ∧
    (∀ (data second : PyVal) (n : ℕ) (rows0 : List PRow),
      pyTruthy data = true → pyLen data = Except.ok n → ¬n < 2 →
      pyItem1 data = Except.ok second → second.isNone = false →
      fromRecords second = Except.ok rows0 → rows0.isEmpty = false →
      (colsOf rows0).contains "country" = true →
      (["country", "countryiso3code", "date", "value"].all
        (fun c => (colsOf rows0).contains c)) = true →
      wbClean (rows0.map (fun r =>
        setCell r "country" (countryApply (getCell r "country")))) = [] →
      wbProcess (FetchOutcome.ok data) = Except.ok emptyC) ∧
    (∀ (resolver : String → String) (indicator : String)
      (top v : List (String × PyVal)),
      (top.lookup "values").getD (PyVal.dict []) = PyVal.dict v →
      pyTruthy ((v.lookup indicator).getD (PyVal.dict [])) = false →
      imfProcess resolver indicator (FetchOutcome.ok (PyVal.dict top))
        = Except.ok emptyC) ∧
    (∀ (resolver : String → String) (indicator : String)
      (top v entries : List (String × PyVal)),
      (top.lookup "values").getD (PyVal.dict []) = PyVal.dict v →
      (v.lookup indicator).getD (PyVal.dict []) = PyVal.dict entries →
      pyTruthy (PyVal.dict entries) = true →
      imfRecords entries = [] →
      imfProcess resolver indicator (FetchOutcome.ok (PyVal.dict top))
        = Except.ok emptyC) ∧
    (∀ (resolver : String → String) (indicator dateRange : String)
      (top entities : List (String × PyVal)),
      (top.lookup "data").getD (PyVal.dict []) = PyVal.dict entities →
      entities.isEmpty = true →
      dcProcess resolver indicator dateRange (FetchOutcome.ok (PyVal.dict top))
        = Except.ok emptyC) ∧
    (∀ (resolver : String → String) (indicator dateRange : String)
      (top entities : List (String × PyVal)),
      (top.lookup "data").getD (PyVal.dict []) = PyVal.dict entities →
      entities.isEmpty = false →
      entities.flatMap (fun e => dcEntity resolver indicator e.1 e.2) = [] →
      dcProcess resolver indicator dateRange (FetchOutcome.ok (PyVal.dict top))
        = Except.ok emptyC) := by
  refine ⟨?_, ?_, ?_, ?_, ?_, ?_, ?_, ?_, ?_, ?_, ?_⟩
  · intro resolver indicator dateRange o h
    cases o with
    | requestError => exact ⟨rfl, rfl, rfl⟩
    | httpError => exact ⟨rfl, rfl, rfl⟩
    | jsonDecodeError => exact ⟨rfl, rfl, rfl⟩
    | ok data => simp [FetchOutcome.isFailure] at h
  · intro data ht
    simp [wbProcess, ht]
  · intro data n ht hlen hn
    simp [wbProcess, ht, hlen, hn]
  · intro data second n ht hlen hn hitem hnone
    simp [wbProcess, ht, hlen, hn, hitem, hnone]
  · intro data second n rows0 ht hlen hn hitem hnone hfrom hemp
    simp [wbProcess, ht, hlen, hn, hitem, hnone, hfrom, hemp]
  · intro data second n rows0 ht hlen hn hitem hnone hfrom hne hcountry hkeep
    have hc : "country" ∈ colsOf rows0 := by simpa using hcountry
    have hk : "country" ∉ colsOf rows0 ∨ "countryiso3code" ∉ colsOf rows0 ∨
        "date" ∉ colsOf rows0 ∨ "value" ∉ colsOf rows0 := by
      by_contra hcon
      push_neg at hcon
      obtain ⟨h1, h2, h3, h4⟩ := hcon
      have hall : (["country", "countryiso3code", "date", "value"].all
          (fun c => (colsOf rows0).contains c)) = true := by
        simp [h1, h2, h3, h4]
      rw [hall] at hkeep
      exact Bool.noConfusion hkeep
    simp [wbProcess, ht, hlen, hn, hitem, hnone, hfrom, hne]
    rw [if_pos hc, if_pos hk]
  · intro data second n rows0 ht hlen hn hitem hnone hfrom hne hcountry hkeep hclean
    have hc : "country" ∈ colsOf rows0 := by simpa using hcountry
    have hkall : "country" ∈ colsOf rows0 ∧ "countryiso3code" ∈ colsOf rows0 ∧
        "date" ∈ colsOf rows0 ∧ "value" ∈ colsOf rows0 := by
      simpa using hkeep
    have hnd : ¬("country" ∉ colsOf rows0 ∨ "countryiso3code" ∉ colsOf rows0 ∨
        "date" ∉ colsOf rows0 ∨ "value" ∉ colsOf rows0) := by
      simp [hkall.1, hkall.2.1, hkall.2.2.1, hkall.2.2.2]
    simp [wbProcess, ht, hlen, hn, hitem, hnone, hfrom, hne, hclean]
    rw [if_pos hc, if_neg hnd]
    rfl
  · intro resolver indicator top v hv hb
    simp [imfProcess, hv, hb]
  · intro resolver indicator top v entries hv hblob htruth hrec
    simp [imfProcess, hv, hblob, htruth, hrec]
  · intro resolver indicator dateRange top entities hd hemp
    simp [dcProcess, hd, hemp]
  · intro resolver indicator dateRange top entities hd hne hrec
    simp [dcProcess, hd, hne, hrec]

/-- Witness for the amended C5, exercising every absorbed failure class at
a concrete input: a transport failure for all three adapters, and one body
per guarded deviation. -/
theorem c5_amended_failure_absorption_witness :
    (FetchOutcome.isFailure FetchOutcome.requestError = true ∧
     wbProcess FetchOutcome.requestError = Except.ok emptyC ∧
     imfProcess id "NGDP_RPCH" FetchOutcome.requestError = Except.ok emptyC ∧
     dcProcess id "NGDP_RPCH" "2010:2023" FetchOutcome.requestError = Except.ok emptyC) ∧
    wbProcess (FetchOutcome.ok PyVal.none) = Except.ok emptyC ∧
    wbProcess (FetchOutcome.ok (PyVal.list [PyVal.dict []])) = Except.ok emptyC ∧
    wbProcess (FetchOutcome.ok (PyVal.list [PyVal.dict [], PyVal.none]))
      = Except.ok emptyC ∧
    wbProcess (FetchOutcome.ok (PyVal.list [PyVal.dict [], PyVal.list []]))
      = Except.ok emptyC ∧
    wbProcess (FetchOutcome.ok wbMissingColsBody) = Except.ok emptyC ∧
    wbProcess (FetchOutcome.ok wbAllNullBody) = Except.ok emptyC ∧
    imfProcess id "IND" (FetchOutcome.ok (PyVal.dict [])) = Except.ok emptyC ∧
    imfProcess id "IND" (FetchOutcome.ok (PyVal.dict imfSentinelTop)) = Except.ok emptyC ∧
    dcProcess id "IND" "2010:2023"
      (FetchOutcome.ok (PyVal.dict [("data", PyVal.dict [])])) = Except.ok emptyC ∧
    dcProcess id "IND" "2010:2023" (FetchOutcome.ok (PyVal.dict dcNoObsTop))
      = Except.ok emptyC := by
  obtain ⟨h1, h2, h3, h4, h5, h6, h7, h8, h9, h10, h11⟩ := c5_amended_failure_absorption
  refine ⟨⟨rfl, h1 id "NGDP_RPCH" "2010:2023" FetchOutcome.requestError rfl⟩, ?_, ?_, ?_, ?_, ?_, ?_, ?_, ?_, ?_, ?_⟩
  · exact h2 PyVal.none rfl
  · exact h3 (PyVal.list [PyVal.dict []]) 1 rfl rfl (by decide)
  · exact h4 (PyVal.list [PyVal.dict [], PyVal.none]) PyVal.none 2 rfl rfl (by decide) rfl rfl
  · exact h5 (PyVal.list [PyVal.dict [], PyVal.list []]) (PyVal.list []) 2 []
      rfl rfl (by decide) rfl rfl rfl rfl
  · exact h6 wbMissingColsBody (PyVal.list [PyVal.dict [("country", PyVal.str "Brazil")]])
      2 [[("country", PyVal.str "Brazil")]] rfl rfl (by decide) rfl rfl rfl rfl rfl rfl
  · exact h7 wbAllNullBody
      (PyVal.list [PyVal.dict [("country", PyVal.str "Brazil"),
        ("countryiso3code", PyVal.str "BRA"), ("date", PyVal.str "2020"),
        ("value", PyVal.none)]])
      2
      [[("country", PyVal.str "Brazil"), ("countryiso3code", PyVal.str "BRA"),
        ("date", PyVal.str "2020"), ("value", PyVal.none)]]
      rfl rfl (by decide) rfl rfl rfl rfl rfl rfl rfl
  · exact h8 id "IND" [] [] rfl rfl
  · exact h9 id "IND" imfSentinelTop
      [("IND", PyVal.dict [("usa", PyVal.dict [("2020", PyVal.str "--")])])]
      [("usa", PyVal.dict [("2020", PyVal.str "--")])] rfl rfl rfl rfl
  · exact h10 id "IND" "2010:2023" [("data", PyVal.dict [])] [] rfl rfl
  · exact h11 id "IND" "2010:2023" dcNoObsTop
      [("country/USA", PyVal.dict [("IND", PyVal.list [])])] rfl rfl rfl

/-- Claim C6: for every indicator code whose leading characters match none
of the three recognized source markers, the facade reports the invalid code
and answers with the empty canonical table carrying the four standard
columns; it calls no adapter and raises nothing. -/
theorem c6_unknown_code_empty_table (indicator_code countries date : String)
    (hwb : pyStartswith indicator_code "WB_" = false)
    (himf : pyStartswith indicator_code "IMF_" = false)
    (hdc : pyStartswith indicator_code "DC_" = false) :
    getData indicator_code countries date = GetDataResult.invalidCode emptyC ∧
    emptyC.cols = std4 := by
  unfold getData
  rw [hwb, himf, hdc]
  exact ⟨rfl, rfl⟩

/-- Witness for C6 at the concrete unknown code `XX_FOO`. -/
theorem c6_unknown_code_empty_table_witness :
    (pyStartswith "XX_FOO" "WB_" = false ∧ pyStartswith "XX_FOO" "IMF_" = false ∧
     pyStartswith "XX_FOO" "DC_" = false) ∧
    getData "XX_FOO" "all" "2010:2023" = GetDataResult.invalidCode emptyC ∧
    emptyC.cols = std4 :=
  ⟨⟨rfl, rfl, rfl⟩, c6_unknown_code_empty_table "XX_FOO" "all" "2010:2023" rfl rfl rfl⟩

/-- Claim C9 counterexample: the facade strips the source marker with
`str.replace`, which removes every occurrence, not only the leading one:
the code `WB_AWB_B` is forwarded as `AB`, not as `AWB_B` as the claim
requires. -/
theorem c9_counterexample :
    getData "WB_AWB_B" "all" "2010:2023"
      = GetDataResult.callAdapter Adapter.worldBank "AB" "all" "2010:2023" ∧
    ("AB" : String) ≠ "AWB_B" :=
  ⟨rfl, by decide⟩

/-- Claim C9 (amended): the facade dispatches by the leading source marker
and forwards the code with every occurrence of the marker substring
removed; whenever the marker does not reoccur in the remainder, this
coincides with stripping exactly the leading marker and leaving the rest
unchanged. -/
theorem c9_amended_replace_strips_marker (indicator_code tail countries date : String) :
    (indicator_code.data = "WB_".data ++ tail.data →
      occursL "WB_".data tail.data = false →
      getData indicator_code countries date
        = GetDataResult.callAdapter Adapter.worldBank tail countries date) ∧
    (indicator_code.data = "IMF_".data ++ tail.data →
      occursL "IMF_".data tail.data = false →
      getData indicator_code countries date
        = GetDataResult.callAdapter Adapter.imf tail countries date) ∧
    (indicator_code.data = "DC_".data ++ tail.data →
      occursL "DC_".data tail.data = false →
      getData indicator_code countries date
        = GetDataResult.callAdapter Adapter.dataCommons tail countries date) := by
  refine ⟨fun h ho => ?_, fun h ho => ?_, fun h ho => ?_⟩
  · have hs : pyStartswith indicator_code "WB_" = true := by
      unfold pyStartswith
      rw [h]
      exact List.isPrefixOf_iff_prefix.mpr (List.prefix_append _ _)
    have hrep : pyReplace indicator_code "WB_" "" = tail := by
      unfold pyReplace
      rw [h, replaceAll_strip _ _ (by decide) ho]
      rfl
    unfold getData
    rw [hs, hrep]
    rfl
  · have hwb : pyStartswith indicator_code "WB_" = false := by
      unfold pyStartswith
      rw [h]
      rfl
    have hs : pyStartswith indicator_code "IMF_" = true := by
      unfold pyStartswith
      rw [h]
      exact List.isPrefixOf_iff_prefix.mpr (List.prefix_append _ _)
    have hrep : pyReplace indicator_code "IMF_" "" = tail := by
      unfold pyReplace
      rw [h, replaceAll_strip _ _ (by decide) ho]
      rfl
    unfold getData
    rw [hwb, hs, hrep]
    rfl
  · have hwb : pyStartswith indicator_code "WB_" = false := by
      unfold pyStartswith
      rw [h]
      rfl
    have himf : pyStartswith indicator_code "IMF_" = false := by
      unfold pyStartswith
      rw [h]
      rfl
    have hs : pyStartswith indicator_code "DC_" = true := by
      unfold pyStartswith
      rw [h]
      exact List.isPrefixOf_iff_prefix.mpr (List.prefix_append _ _)
    have hrep : pyReplace indicator_code "DC_" "" = tail := by
      unfold pyReplace
      rw [h, replaceAll_strip _ _ (by decide) ho]
      rfl
    unfold getData
    rw [hwb, himf, hs, hrep]
    rfl

/-- Witness for the amended C9 at the real indicator code of the pipeline. -/
theorem c9_amended_replace_strips_marker_witness :
    ("WB_SI.POV.GINI" : String).data = "WB_".data ++ ("SI.POV.GINI" : String).data ∧
    occursL "WB_".data ("SI.POV.GINI" : String).data = false ∧
    getData "WB_SI.POV.GINI" "all" "2010:2023"
      = GetDataResult.callAdapter Adapter.worldBank "SI.POV.GINI" "all" "2010:2023" :=
  ⟨rfl, rfl,
    (c9_amended_replace_strips_marker "WB_SI.POV.GINI" "SI.POV.GINI" "all" "2010:2023").1
      rfl rfl⟩

theorem imfPoint_skip {s : String} (iso year_str : String)
    (h : imfSkipStr s = true) :
    imfPoint iso year_str (PyVal.str s) = Option.none := by
  unfold imfSkipStr at h
  cases hy : pyParseInt year_str with
  | none => simp [imfPoint, hy]
  | some yy =>
    simp only [imfPoint, hy]
    rcases Bool.or_eq_true_iff.mp h with hs | hp
    · simp [hs]
    · simp [Option.isNone_iff_eq_none.mp hp]

/-- Claim C8: an IMF data point whose value is a sentinel (or otherwise
unparsable) string is entirely absent from the record set — deleting the
point from the response leaves the output unchanged, so it is not recorded
as zero or as a null row, and all other data points of the same response
are kept. -/
theorem c8_sentinel_point_skipped (pre post ym1 ym2 : List (String × PyVal))
    (iso year_str s : String) (h : imfSkipStr s = true) :
    imfRecords (pre ++ (iso, PyVal.dict (ym1 ++ (year_str, PyVal.str s) :: ym2)) :: post)
      = imfRecords (pre ++ (iso, PyVal.dict (ym1 ++ ym2)) :: post) := by
  unfold imfRecords
  rw [List.flatMap_append, List.flatMap_append, List.flatMap_cons, List.flatMap_cons]
  have hc : ∀ d : List (String × PyVal), imfCountry (iso, PyVal.dict d)
      = d.flatMap (fun p => (imfPoint iso p.1 p.2).toList) := fun d => rfl
  rw [hc, hc, List.flatMap_append, List.flatMap_append, List.flatMap_cons,
    imfPoint_skip iso year_str h]
  rfl

/-- Witness for C8: the sentinel `--` point of a concrete response is
dropped while the numeric point of the same country is kept. -/
theorem c8_sentinel_point_skipped_witness :
    imfSkipStr "--" = true ∧
    imfRecords [("usa", PyVal.dict [("2019", PyVal.num 5), ("2020", PyVal.str "--")])]
      = imfRecords [("usa", PyVal.dict [("2019", PyVal.num 5)])] :=
  ⟨rfl, c8_sentinel_point_skipped [] [] [("2019", PyVal.num 5)] [] "usa" "2020" "--" rfl⟩

/-- Claim C2 counterexample: on the specification scenario record the World
Bank adapter keeps `indicator_value` as the source string `"15000.5"`; the
value is not coerced to the number 15000.5 as the claim states (only the
`date` column is coerced). -/
theorem c2_counterexample :
    wbProcess (FetchOutcome.ok wbScenarioBody) = Except.ok wbScenarioTable ∧
    wbScenarioRow.indicator_value = PyVal.str "15000.5" ∧
    PyVal.str "15000.5" ≠ PyVal.num 15000.5 :=
  ⟨rfl, rfl, fun h => PyVal.noConfusion h⟩

/-- Claim C2 (amended): the scenario record yields the canonical row
`("Brazil", "BRA", 2020, "15000.5")` with the year parsed to the integer
2020 but the value kept in its source type; in general, in every row of a
World Bank canonical table the year is an integer and the `indicator_value`
and `country` cells are non-null (null values are dropped), though
`indicator_value` is never coerced to a number. -/
theorem c2_amended_value_kept_nonnull (o : FetchOutcome) (t : CTable)
    (h : wbProcess o = Except.ok t) :
    ∀ r ∈ t.rows, r.indicator_value ≠ PyVal.none ∧ r.country ≠ PyVal.none := by
  intro r hr
  cases o with
  | requestError =>
    injection h with h
    subst h
    exact absurd hr (List.not_mem_nil r)
  | httpError =>
    injection h with h
    subst h
    exact absurd hr (List.not_mem_nil r)
  | jsonDecodeError =>
    injection h with h
    subst h
    exact absurd hr (List.not_mem_nil r)
  | ok data =>
    unfold wbProcess at h
    repeat' first
      | split at h
      | dsimp only at h
    all_goals first
      | exact Except.noConfusion h
      | (injection h with h; subst h;
         first
           | exact absurd hr (List.not_mem_nil r)
           | exact wbClean_mem hr)

/-- Witness for the amended C2 at the specification scenario. -/
theorem c2_amended_value_kept_nonnull_witness :
    wbProcess (FetchOutcome.ok wbScenarioBody) = Except.ok wbScenarioTable ∧
    wbScenarioRow ∈ wbScenarioTable.rows ∧
    wbScenarioRow.indicator_value ≠ PyVal.none ∧ wbScenarioRow.country ≠ PyVal.none :=
  ⟨rfl, List.mem_singleton.mpr rfl,
    c2_amended_value_kept_nonnull (FetchOutcome.ok wbScenarioBody) wbScenarioTable rfl
      wbScenarioRow (List.mem_singleton.mpr rfl)⟩

/-- Claim C4: within a year group, an indicator series with at least two
distinct values normalizes its minimum to 0 and its maximum to 1 with all
entries in the unit interval, and a zero-variance series (including the
single-country group) normalizes every entry to 0.5. -/
theorem c4_normalize_minmax (l : List ℚ) (hl : l ≠ []) :
    (listMin l ∈ l ∧ listMax l ∈ l) ∧
    ((∃ a ∈ l, ∃ b ∈ l, a ≠ b) →
      ∀ i : ℕ, i < l.length →
        (0 ≤ (normalize l).getD i 0 ∧ (normalize l).getD i 0 ≤ 1) ∧
        (l.getD i 0 = listMin l → (normalize l).getD i 0 = 0) ∧
        (l.getD i 0 = listMax l → (normalize l).getD i 0 = 1)) ∧
    (listMax l = listMin l → ∀ y ∈ normalize l, y = 1 / 2) := by
  refine ⟨⟨listMin_mem hl, listMax_mem hl⟩, ?_, ?_⟩
  · intro hd i hi
    have hne := distinct_imp_max_ne_min hd
    have hbr : normalize l
        = l.map (fun x => (x - listMin l) / (listMax l - listMin l)) := by
      unfold normalize
      rw [if_neg hne]
    have hpos : 0 < listMax l - listMin l :=
      sub_pos.mpr (listMin_lt_listMax hl hne)
    refine ⟨?_, ?_, ?_⟩
    · apply normalize_mem_bounds (l := l)
      apply getD_mem_normalize
      rw [normalize_length]
      exact hi
    · intro hmin
      rw [hbr, getD_map_of_lt _ hi, hmin, sub_self, zero_div]
    · intro hmax
      rw [hbr, getD_map_of_lt _ hi, hmax, div_self (ne_of_gt hpos)]
  · intro he y hy
    unfold normalize at hy
    rw [if_pos he] at hy
    rcases List.mem_map.mp hy with ⟨x, _, hfx⟩
    rw [← hfx]

/-- Witness for C4 on the two-country scenario series (20, 80): the minimum
normalizes to 0 and the maximum to 1, both inside the unit interval. -/
theorem c4_normalize_minmax_witness :
    ([(20 : ℚ), 80] ≠ []) ∧
    (0 ≤ (normalize [(20 : ℚ), 80]).getD 0 0 ∧ (normalize [(20 : ℚ), 80]).getD 0 0 ≤ 1) ∧
    (normalize [(20 : ℚ), 80]).getD 0 0 = 0 ∧
    (normalize [(20 : ℚ), 80]).getD 1 0 = 1 := by
  have h := (c4_normalize_minmax [(20 : ℚ), 80] (by simp)).2.1
    ⟨20, by simp, 80, by simp, by norm_num⟩
  refine ⟨by simp, (h 0 (by simp)).1, ?_, ?_⟩
  · exact (h 0 (by simp)).2.1 (by norm_num [listMin, min_def])
  · exact (h 1 (by simp)).2.2 (by norm_num [listMax, max_def])

/-- Claim C3 counterexample: the merger is not free of deduplication.  A
fetched table with two rows sharing the `(countryiso3code, date)` key
`("ATL", 2000)` contributes only its first row to the merged result: the
duplicate is removed by `drop_duplicates` before the join, so the join
cannot fan out. -/
theorem c3_counterexample :
    dupKeyTable.length = 2 ∧
    (mergePipeline [("gini", dupKeyTable)]).rows
      = [MRow.mk "Atlantis" "ATL" 2000 [("gini", PyVal.num 1)]] :=
  ⟨rfl, rfl⟩

/-- Claim C3 (amended): the merger deduplicates each non-empty fetched
table on `(countryiso3code, date)` before the progressive outer join,
keeping the first occurrence of each key, so every table entering the join
has pairwise distinct keys and the join does not fan out. -/
theorem c3_amended_dedup_before_join (name : String) (t : List CanRow)
    (mt : MTab) (h : prepTable name t = some mt) :
    (mt.rows.map (fun r => (r.iso3, r.date))).Nodup := by
  unfold prepTable at h
  split at h
  · exact Option.noConfusion h
  · injection h with h
    subst h
    dsimp only
    rw [List.map_map]
    exact dropDupByF_nodup (fun r : CanRow => (r.iso3, r.date)) t.length t le_rfl

/-- Witness for the amended C3 on the duplicated-key table. -/
theorem c3_amended_dedup_before_join_witness :
    prepTable "gini" dupKeyTable
      = some (MTab.mk ["gini"] [MRow.mk "Atlantis" "ATL" 2000 [("gini", PyVal.num 1)]]) ∧
    ((MTab.mk ["gini"]
        [MRow.mk "Atlantis" "ATL" 2000 [("gini", PyVal.num 1)]]).rows.map
      (fun r => (r.iso3, r.date))).Nodup :=
  ⟨rfl, c3_amended_dedup_before_join "gini" dupKeyTable _ rfl⟩

/-- Claim C10: outer-joining a merged table with itself on the three join
keys is idempotent when the keys are unique: the joined rows carry exactly
the same key list (hence the same set of `(country, year)` rows, without
duplication) as the input. -/
theorem c10_selfjoin_idempotent (A : MTab) (h : (A.rows.map mkey).Nodup) :
    (outerJoin A A).rows.map mkey = A.rows.map mkey := by
  unfold outerJoin
  dsimp only
  rw [List.map_append]
  have hpart2 : A.rows.filter
      (fun b => A.rows.all (fun a => !decide (mkey a = mkey b))) = [] := by
    rw [List.filter_eq_nil_iff]
    intro b hb hcontra
    have hbb := List.all_eq_true.mp hcontra b hb
    simp at hbb
  rw [hpart2]
  have hf : ∀ a ∈ A.rows,
      (let ms := A.rows.filter (fun b => decide (mkey b = mkey a))
       if ms.isEmpty then
         [MRow.mk a.country a.iso3 a.date
           (a.vals ++ A.valCols.map (fun c => (c, PyVal.none)))]
       else ms.map (fun b => MRow.mk a.country a.iso3 a.date (a.vals ++ b.vals)))
        = [MRow.mk a.country a.iso3 a.date (a.vals ++ a.vals)] := by
    intro a ha
    have hms := filter_mkey_single h ha
    dsimp only
    rw [hms]
    rfl
  rw [flatMap_singleton_map _
    (fun a => MRow.mk a.country a.iso3 a.date (a.vals ++ a.vals)) A.rows hf]
  rw [List.map_map]
  simp only [List.map_nil, List.append_nil]
  rfl

/-- Witness for C10 on a concrete two-row table with unique keys. -/
theorem c10_selfjoin_idempotent_witness :
    (selfJoinTable.rows.map mkey).Nodup ∧
    (outerJoin selfJoinTable selfJoinTable).rows.map mkey
      = selfJoinTable.rows.map mkey :=
  ⟨by decide, c10_selfjoin_idempotent selfJoinTable (by decide)⟩

/-- Claim C7: every row of the scored output of the fairness pipeline
carries a `fairness_score` that is a number in the closed interval [0, 6],
the sum of six normalized components each lying in [0, 1] (or fixed at 0.5
for a degenerate group). -/
theorem c7_fairness_score_bounds (t : PTable) (s c : PTable)
    (h : calcFairnessScore t = Except.ok (s, c)) :
    ∀ r ∈ s.rows, ∃ q, getCell r "fairness_score" = PyVal.num q ∧ 0 ≤ q ∧ q ≤ 6 := by
  intro r hr
  unfold calcFairnessScore at h
  repeat' first
    | split at h
    | dsimp only at h
  all_goals first
    | exact Except.noConfusion h
    | (injection h with h; injection h with hs hc; subst hs;
       exact absurd hr (List.not_mem_nil r))
    | (injection h with h; injection h with hs hc; subst hs;
       rcases List.mem_map.mp hr with ⟨r0, hr0, hset⟩;
       rcases seqGroups_mem (by assumption) hr0 with ⟨g, hg, og, hog, hr0g⟩;
       have hb := fairSum_bounds (processYearData_components hog r0 hr0g);
       refine ⟨fairSum r0, ?_, hb.1, hb.2⟩;
       rw [← hset];
       exact getCell_setCell_same r0 "fairness_score" (PyVal.num (fairSum r0)))

/-- Witness for C7: the scorer on a concrete one-row merged table returns a
scored table whose first row has its fairness score inside [0, 6]. -/
theorem c7_fairness_score_bounds_witness :
    ∃ q, getCell ((okFst (calcFairnessScore scoreWitnessTable)).rows.headD [])
        "fairness_score" = PyVal.num q ∧ 0 ≤ q ∧ q ≤ 6 :=
  c7_fairness_score_bounds scoreWitnessTable
    (okFst (calcFairnessScore scoreWitnessTable))
    (okSnd (calcFairnessScore scoreWitnessTable))
    rfl
    ((okFst (calcFairnessScore scoreWitnessTable)).rows.headD [])
    (List.Mem.head _)

end Dashboard
